import Mathlib

/-!
# Verification of the appemd incremental Markdown renderer

Shallow embedding of the reconciliation engine of the `appemd` repository:
the `MarkdownRenderer` (renderer.ts revisions), the block renderers
(blocks.ts revisions), the inline tree builder (inline.ts), the URL
sanitizer and block dispatch (utils.ts), and the default render schema
(spec.ts).  Each definition is translated from the TypeScript source; the
few places where an external library call (lezer's `TreeFragment`, the
WHATWG `URL` constructor, snabbdom's `patch`) or a source file absent from
the repository snapshot (`consts.ts`) had to be modelled are marked in the
corresponding doc comment.
-/

namespace Appemd

/-! ## JavaScript string primitives

JS `String.prototype.substring(a, b)` clamps both indices into `[0, len]`
and swaps them when `a > b`.  `slice(a, b)` (with non-negative arguments,
the only way the renderer calls it) clamps without swapping. -/

def jsSubstring (s : String) (a b : Nat) : String :=
  let n := s.length
  let lo := min (min a n) (min b n)
  let hi := max (min a n) (min b n)
  String.mk ((s.toList.drop lo).take (hi - lo))

def jsSlice (s : String) (a b : Nat) : String :=
  let n := s.length
  let lo := min a n
  let hi := min b n
  String.mk ((s.toList.drop lo).take (hi - lo))

def jsSliceFrom (s : String) (a : Nat) : String :=
  jsSlice s a s.length

/-- JS `name.startsWith(prefixString)`, computed on character lists. -/
def jsStartsWith (s pre : String) : Bool :=
  pre.toList.isPrefixOf s.toList

/-- JS `leafText.match(/^\d+/)`: the maximal leading run of decimal digits,
`none` when the string does not start with a digit. -/
def jsLeadingDigits (s : String) : Option String :=
  match s.toList with
  | [] => none
  | c :: _ => if c.isDigit then some (String.mk (s.toList.takeWhile Char.isDigit)) else none

/-! ## Syntax source adapter: fragments and the append cycle

From `renderer.ts` (`MarkdownRenderer.append`, part_000 lines 233-261).
`TreeFragment` is lezer's reusable-parse-fragment record; only its `to`
offset is read by the renderer. -/

structure TreeFragment where
  fragFrom : Nat
  fragTo : Nat
deriving DecidableEq, Repr

/-- The edited-range descriptor `{fromA, toA, fromB, toB}` handed to
`TreeFragment.applyChanges`. -/
structure ChangedRange where
  fromA : Nat
  toA : Nat
  fromB : Nat
  toB : Nat
deriving DecidableEq, Repr

/-- Renderer state relevant to the append cycle: the fragment set and the
current text (the tree itself is re-derived from the text each pass). -/
structure MDRenderer where
  fragments : List TreeFragment
  text : String
deriving DecidableEq, Repr

/-- Model of lezer's `TreeFragment.addTree(tree, fragments)` contract: it
returns a fresh fragment covering the whole tree (span `[0, tree.length]`)
prepended to the retained fragments, hence always a non-empty array. -/
def addTree (treeLen : Nat) (fragments : List TreeFragment) : List TreeFragment :=
  { fragFrom := 0, fragTo := treeLen } :: fragments

/-- Model of lezer's `TreeFragment.applyChanges(fragments, changed, 1)`:
fragments overlapping the changed region (padded by minGap) are dropped or
trimmed; the detail is irrelevant to the claims settled here, which only
depend on the result being recombined through `addTree`. -/
def applyChanges (fragments : List TreeFragment) (changed : ChangedRange) : List TreeFragment :=
  fragments.filter (fun f => f.fragTo + 1 ≤ changed.fromA)

/-- Lines 238-247 of `MarkdownRenderer.append`: the edited-range
descriptor computed from the last fragment's end offset (`none` when the
fragment set is empty and `append` throws before reaching this code). -/
def MDRenderer.appendChanged (r : MDRenderer) (chunk : String) : Option ChangedRange :=
  match r.fragments.getLast? with
  | none => none
  | some frag =>
    let f := frag.fragTo
    let t := f + chunk.length
    some { fromA := f, toA := t, fromB := f, toB := f + chunk.length }

/-- `MarkdownRenderer.append(chunk)`: throws `"AST is not instantiated"`
when the fragment set is empty; otherwise computes the changed range,
applies the text mutator `text.slice(0, from) + chunk + text.slice(to)`,
derives continuation fragments and re-adds the re-parsed tree. -/
def MDRenderer.append (r : MDRenderer) (chunk : String) : Except String MDRenderer :=
  match r.fragments.getLast? with
  | none => Except.error "AST is not instantiated"
  | some frag =>
    let f := frag.fragTo
    let t := f + chunk.length
    let changed : ChangedRange :=
      { fromA := f, toA := t, fromB := f, toB := f + chunk.length }
    let text' := jsSlice r.text 0 f ++ chunk ++ jsSliceFrom r.text t
    let fragments := applyChanges r.fragments changed
    Except.ok { fragments := addTree text'.length fragments, text := text' }

/-- `MarkdownRenderer.init` / `render`: a cold parse of the full text
followed by `TreeFragment.addTree(tree)`. -/
def MDRenderer.init (text : String) : MDRenderer :=
  { fragments := addTree text.length [], text := text }

/-! ## Syntax tree model

Lezer `SyntaxNode`: kind name, half-open span `[nFrom, nTo)`, ordered
children.  The `inst` flag records whether the node's style tags (from
`@lezer/highlight`'s `getStyleTags`) include `tags.processingInstruction`,
which is the sole property `getNodesByTag` is called with by this code
(`getInstChildren` / `getNonInstChildren`). -/

inductive SNode where
  | mk (name : String) (nFrom nTo : Nat) (children : List SNode) (inst : Bool)

def SNode.name : SNode → String
  | .mk n _ _ _ _ => n

def SNode.nFrom : SNode → Nat
  | .mk _ f _ _ _ => f

def SNode.nTo : SNode → Nat
  | .mk _ _ t _ _ => t

def SNode.children : SNode → List SNode
  | .mk _ _ _ cs _ => cs

def SNode.inst : SNode → Bool
  | .mk _ _ _ _ i => i

instance : Inhabited SNode := ⟨.mk "" 0 0 [] false⟩

/-- `getInstChildren(node)`: children whose style tags include
`processingInstruction` (the delimiter tokens). -/
def getInstChildren (n : SNode) : List SNode :=
  n.children.filter (·.inst)

/-- `getNonInstChildren(node)`: children none of whose style tags is
`processingInstruction`. -/
def getNonInstChildren (n : SNode) : List SNode :=
  n.children.filter (fun c => !c.inst)

/-- `children.sort((a, b) => a.from - b.from)` — a stable sort by span
start (insertion sort is stable, matching the ECMAScript requirement). -/
def sortByFrom (l : List SNode) : List SNode :=
  l.insertionSort (fun a b => a.nFrom ≤ b.nFrom)

/-! ## Render-target model

A host tree node: an element with a tag, attributes and ordered children,
or a text node. -/

inductive DNode where
  | el (tag : String) (attributes : List (String × String)) (children : List DNode)
  | txt (s : String)

instance : Inhabited DNode := ⟨.txt ""⟩

def DNode.tagOf : DNode → Option String
  | .el t _ _ => some t
  | .txt _ => none

def DNode.childrenOf : DNode → List DNode
  | .el _ _ cs => cs
  | .txt _ => []

/-- `textContent` of a node: the concatenated text of its leaves. -/
def DNode.textContent : DNode → String
  | .txt s => s
  | .el _ _ cs => go cs
where
  go : List DNode → String
    | [] => ""
    | c :: rest => c.textContent ++ go rest

/-- `element.getAttribute(k)`: `null` (here `none`) when absent. -/
def getAttr (attributes : List (String × String)) (k : String) : Option String :=
  (attributes.find? (fun p => p.1 = k)).map (·.2)

def DNode.getAttribute (d : DNode) (k : String) : Option String :=
  match d with
  | .el _ a _ => getAttr a k
  | .txt _ => none

/-- `element.setAttribute(k, v)`: overwrite an existing attribute or
append a new one. -/
def setAttr (attributes : List (String × String)) (k v : String) : List (String × String) :=
  if (attributes.find? (fun p => p.1 = k)).isSome then
    attributes.map (fun p => if p.1 = k then (k, v) else p)
  else
    attributes ++ [(k, v)]

def DNode.setAttribute (d : DNode) (k v : String) : DNode :=
  match d with
  | .el t a cs => .el t (setAttr a k v) cs
  | .txt s => .txt s

/-- `element.textContent = s`: replaces all children with one text node. -/
def DNode.setText (d : DNode) (s : String) : DNode :=
  match d with
  | .el t a _ => .el t a [.txt s]
  | .txt _ => .txt s

/-! ## Render schema

`LezerTagMap` and `schemaSpec` from spec.ts.  One record type serves for
both block and mark entries; mark entries carry no render/cleanup hooks.
The cleanup hooks (`code_block`, `bullet_list`) are those of the spec.ts
revision paired with the renderer that invokes them (part_004). -/

structure SpecEntry where
  tag : String
  cls : Option String := none
  attributes : List (String × String) := []
  hasRender : Bool := false
  hasCleanup : Bool := false
  childTags : List String := []
deriving DecidableEq, Repr

def LezerTagMap (name : String) : Option String :=
  match name with
  | "Paragraph" => some "paragraph"
  | "ATXHeading1" => some "heading"
  | "ATXHeading2" => some "heading"
  | "ATXHeading3" => some "heading"
  | "ATXHeading4" => some "heading"
  | "ATXHeading5" => some "heading"
  | "ATXHeading6" => some "heading"
  | "SetextHeading1" => some "heading"
  | "SetextHeading2" => some "heading"
  | "CodeBlock" => some "code_block"
  | "FencedCode" => some "code_block"
  | "Blockquote" => some "block_quote"
  | "HorizontalRule" => some "horizontal_rule"
  | "BulletList" => some "bullet_list"
  | "OrderedList" => some "ordered_list"
  | "StrongEmphasis" => some "strong"
  | "Emphasis" => some "em"
  | "Strikethrough" => some "strikethrough"
  | "Subscript" => some "subscript"
  | "Superscript" => some "superscript"
  | "InlineCode" => some "code"
  | "Hardbreak" => some "hard_break"
  | "Link" => some "link"
  | _ => none

def schemaBlocks (name : String) : Option SpecEntry :=
  match name with
  | "paragraph" => some { tag := "p", hasRender := true }
  | "heading" => some { tag := "h1", hasRender := true }
  | "blockquote" => some { tag := "blockquote", hasRender := true }
  | "code_block" =>
    some { tag := "pre", hasRender := true, hasCleanup := true, childTags := ["code"] }
  | "horizontal_rule" => some { tag := "hr", hasRender := true }
  | "ordered_list" => some { tag := "ol", cls := some "list-desc", hasRender := true }
  | "bullet_list" => some { tag := "ul", hasRender := true, hasCleanup := true }
  | "list_item" => some { tag := "li" }
  | "table" => some { tag := "table", hasRender := true }
  | "table_header" => some { tag := "thead" }
  | "table_body" => some { tag := "tbody" }
  | "table_row" => some { tag := "tr" }
  | "table_header_cell" => some { tag := "th" }
  | "table_cell" => some { tag := "td" }
  | _ => none

def schemaMarks (name : String) : Option SpecEntry :=
  match name with
  | "strong" => some { tag := "strong" }
  | "em" => some { tag := "em" }
  | "strikethrough" => some { tag := "s" }
  | "subscript" => some { tag := "sub" }
  | "superscript" => some { tag := "sup" }
  | "code" => some { tag := "code" }
  | "link" =>
    some { tag := "a", attributes := [("rel", "noopener noreferrer"), ("target", "_blank")] }
  | "hard_break" => some { tag := "br" }
  | _ => none

/-- `createElement(spec, tag?)` (utils.ts): element with the spec's (or
overridden) tag, its class and attributes, plus one child element per
child spec (the default schema's child specs are bare tags). -/
def createElement (spec : SpecEntry) (tagOverride : Option String := none) : DNode :=
  let baseAttrs := match spec.cls with
    | some c => [("class", c)]
    | none => []
  DNode.el (tagOverride.getD spec.tag) (baseAttrs ++ spec.attributes)
    (spec.childTags.map (fun t => DNode.el t [] []))

/-- `createMark(schema, markType)` (inline.ts part_005): throws
`Unknown mark type` when the schema has no entry. -/
def createMark (markType : String) : Except String DNode :=
  match schemaMarks markType with
  | none => Except.error ("Unknown mark type: " ++ markType)
  | some spec => Except.ok (createElement spec)

/-- `createBlock(schema, name, level?)` (utils.ts): throws
`Unknown node type` when the schema has no entry; for `"heading"` with a
truthy level the tag is overridden to `h<level>`. -/
def createBlockL (name : String) (level : Option Nat) : Except String DNode :=
  match schemaBlocks name with
  | none => Except.error ("Unknown node type: " ++ name)
  | some spec =>
    let tagOverride : Option String :=
      if name = "heading" then
        match level with
        | some l => if l = 0 then none else some ("h" ++ toString l)
        | none => none
      else none
    Except.ok (createElement spec tagOverride)

/-! ## URL sanitizer (utils.ts `sanitizeUrl`, part_002 lines 31-39)

The source calls `new URL(url, window.location.href)`.  The WHATWG `URL`
constructor is modelled as follows: an input starting with an ASCII
letter followed by letters/digits/`+`/`-`/`.` and a `:` parses as an
absolute URL whose protocol is that scheme lower-cased; any other input
is resolved relative to the base and inherits the base's protocol; the
constructor throws when neither input nor base yields a scheme.  The base
(the page's own location) is passed explicitly here. -/

def jsSchemeOf (s : String) : Option String :=
  match s.toList with
  | [] => none
  | c :: rest =>
    if c.isAlpha then
      let body := rest.takeWhile (fun ch => ch.isAlphanum || ch = '+' || ch = '-' || ch = '.')
      match rest.drop body.length with
      | ':' :: _ => some (String.mk ((c :: body).map Char.toLower) ++ ":")
      | _ => none
    else none

def urlProtocol (url base : String) : Option String :=
  (jsSchemeOf url).orElse (fun _ => jsSchemeOf base)

def allowedProtocols : List String := ["http:", "https:", "mailto:", "tel:"]

def sanitizeUrl (url base : String) : String :=
  match urlProtocol url base with
  | some p => if allowedProtocols.contains p then url else "#"
  | none => "#"

/-! ## Link rendering (inline.ts part_005, `renderLinkMark` lines 118-149) -/

/-- `title.replace(/"/g, "")`. -/
def jsStripDoubleQuotes (s : String) : String :=
  String.mk (s.toList.filter (fun c => c ≠ '"'))

def renderLinkMark (text base : String) (node : SNode) : Except String DNode :=
  let children := node.children
  let urlNode := children.find? (fun n => n.name = "URL")
  if urlNode.isNone || children.length < 3 then
    -- Fallback to text if link is malformed
    Except.ok (DNode.el "span" [] [DNode.txt (jsSubstring text node.nFrom node.nTo)])
  else
    let u := urlNode.getD default
    let c0 := children.getD 0 default
    let c1 := children.getD 1 default
    let url := jsSubstring text u.nFrom u.nTo
    let label :=
      if c1.name = "URL" then jsSubstring text c1.nFrom c1.nTo
      else jsSubstring text c0.nTo c1.nFrom
    (createMark "link").map (fun link =>
      let link := (link.setAttribute "href" (sanitizeUrl url base)).setText label
      match children.find? (fun n => n.name = "LinkTitle") with
      | some titleNode =>
        let title := jsSubstring text titleNode.nFrom titleNode.nTo
        link.setAttribute "title" (jsStripDoubleQuotes title)
      | none => link)

/-! ## Block dispatch (utils.ts `renderBlock`, part_002 lines 41-53)

`renderFn = state.schema.blocks[nodeName]?.render || defaultRenderFn`
where `defaultRenderFn` is the paragraph renderer. -/

inductive BlockDispatch where
  | skip
  | renderWith (key : String)
deriving DecidableEq, Repr

def renderBlockDispatch (block : SNode) : BlockDispatch :=
  if block.name = "CommentBlock" then .skip
  else
    match LezerTagMap block.name with
    | some nodeName =>
      match schemaBlocks nodeName with
      | some spec => if spec.hasRender then .renderWith nodeName else .renderWith "paragraph"
      | none => .renderWith "paragraph"
    | none => .renderWith "paragraph"

/-! ## Schema resolution (utils.ts `getNodeSpec`, part_001 lines 328-340) -/

/-- `name.slice(-1)`: the last character of the name as a string. -/
def jsLastChar (s : String) : String :=
  match s.toList.getLast? with
  | some c => String.mk [c]
  | none => ""

/-- `getNodeSpec(schema, node)`: look the node's kind up in `LezerTagMap`,
then in `schema.marks` falling back to `schema.blocks`; for heading kinds
the tag is overridden to `h<last character of the kind name>`.  `none`
models the JS `undefined` that reaches callers for unmapped kinds. -/
def getNodeSpecL (node : SNode) : Option SpecEntry :=
  let headingLevel : Option String :=
    if jsStartsWith node.name "ATXHeading" || jsStartsWith node.name "SetextHeading" then
      some (jsLastChar node.name)
    else none
  match LezerTagMap node.name with
  | none => none
  | some ty =>
    match (schemaMarks ty).orElse (fun _ => schemaBlocks ty) with
    | none => none
    | some spec =>
      match headingLevel with
      | some lvl => some { spec with tag := "h" ++ lvl }
      | none => some spec

/-! ## Sync pass (renderer.ts `syncDOM`, part_001 lines 237-254)

`els` is the list of `tagName` strings of the parent's current element
children (lower-cased on comparison, as in the source).  The result is
the list of elements kept; everything from the computed splice start is
removed via `removeChild`. -/

def jsToLower (s : String) : String :=
  String.mk (s.toList.map Char.toLower)

/-- One entry of the `mismatches` array:
`el?.tagName.toLowerCase() !== spec.tag` for the node at index `i`
(`true` when no element exists at `i`). -/
def tagMismatch (ts els : List String) (i : Nat) : Bool :=
  match ts.get? i, els.get? i with
  | some t, some e => jsToLower e ≠ t
  | some _, none => true
  | none, _ => false

/-- The eager `nodes.map(...)` over `getNodeSpec`: throws (`none`) as soon
as some node's spec is `undefined` (`spec.tag` on `undefined`). -/
def expectedTags? (nodes : List SNode) : Option (List String) :=
  nodes.mapM (fun n => (getNodeSpecL n).map (·.tag))

/-- JS `Array.prototype.indexOf`: first index of the target, `-1` when
absent. -/
def jsIndexOfAux (l : List Bool) (target : Bool) (i : Int) : Int :=
  match l with
  | [] => -1
  | b :: rest => if b = target then i else jsIndexOfAux rest target (i + 1)

def jsIndexOf (l : List Bool) (target : Bool) : Int :=
  jsIndexOfAux l target 0

def syncDOMKept (nodes : List SNode) (els : List String) : Except String (List String) :=
  match expectedTags? nodes with
  | none => Except.error "TypeError: cannot read properties of undefined"
  | some ts =>
    let mismatches := (List.range ts.length).map (fun i => tagMismatch ts els i)
    -- const firstMismatch = mismatches.indexOf(true)  (-1 when absent)
    let firstMismatch : Int := jsIndexOf mismatches true
    -- Array.from(parent.children).splice(firstMismatch) : JS splice start
    -- is max(len + start, 0) for negative start, min(start, len) otherwise
    let start : Nat :=
      if firstMismatch < 0 then ((els.length : Int) + firstMismatch).toNat
      else min firstMismatch.toNat els.length
    Except.ok (els.take start)

/-! ## Cleanup step (renderer.ts `renderDOM`, part_001 lines 222-230)

After the render loop (`index` having reached `children.length`), the
previous pass's block index (`this.state.block?.index`) decides whether a
cleanup hook fires.  Returns the list of invocations performed; each is
the block index paired with the element handed to the hook. -/

def cleanupInvocations (lastBlockId : Option Nat) (finalIndex : Nat)
    (children : List SNode) (els : List String) : Except String (List (Nat × String)) :=
  match lastBlockId with
  | none => Except.ok []
  | some n =>
    -- if (lastBlockId && lastBlockId < index - 1): the number `lastBlockId`
    -- is truthy exactly when it is non-zero
    if n ≠ 0 ∧ (n : Int) < (finalIndex : Int) - 1 then
      match children.get? n with
      | none => Except.error "TypeError: lastBlock is undefined"
      | some lastBlock =>
        match getNodeSpecL lastBlock with
        | none => Except.error "TypeError: cannot read cleanup of undefined"
        | some spec =>
          if spec.hasCleanup then
            match els.get? n with
            | some el => Except.ok [(n, el)]
            | none => Except.ok []
          else Except.ok []
    else Except.ok []

/-! ## Ordered-list start attribute (blocks.ts `ListRenderer.render`,
lines 151-159) -/

/-- JS string truthiness of `getAttribute`'s result: `null` and the empty
string are falsy. -/
def jsAttrTruthy : Option String → Bool
  | none => false
  | some s => s ≠ ""

/-- The `start`-attribute block of `ListRenderer.render`: `attrs` are the
list element's attributes, `isOl` whether it is an `HTMLOListElement`,
`children` the list's non-instruction children (its items). -/
def listStartUpdate (attrs : List (String × String)) (isOl : Bool)
    (text : String) (children : List SNode) : List (String × String) :=
  let start := getAttr attrs "start"
  if isOl ∧ ¬jsAttrTruthy start then
    match children.head? with
    | some leaf =>
      let leafText := jsSubstring text leaf.nFrom leaf.nTo
      let numbers := jsLeadingDigits leafText
      setAttr attrs "start" (numbers.getD "1")
    | none => attrs
  else attrs

/-! ## Inline formatting tree (src/inline.ts `buildInlineNodeTree`)

`InlineNode`: optional back-reference to the originating `SyntaxNode`
(absent for a plain-text run), a span into the source text, and ordered
children. -/

inductive LNode where
  | mk (ref : Option SNode) (nFrom nTo : Nat) (children : List LNode)

instance : Inhabited LNode := ⟨.mk none 0 0 []⟩

def LNode.ref : LNode → Option SNode
  | .mk r _ _ _ => r

def LNode.nFrom : LNode → Nat
  | .mk _ f _ _ => f

def LNode.nTo : LNode → Nat
  | .mk _ _ t _ => t

def LNode.children : LNode → List LNode
  | .mk _ _ _ cs => cs

/-- Modelled from the spec: `LezerMarksMap` lives in `consts.ts`, a file
absent from the repository snapshot.  Per §4.3 the nestable-mark kinds —
bold, italic, strikethrough, sub/superscript, inline code — recurse into
their own non-instruction children; anything else becomes an opaque text
leaf, so the map's truthy keys are exactly the six nestable mark kinds. -/
def LezerMarksMap (name : String) : Bool :=
  name ∈ ["StrongEmphasis", "Emphasis", "Strikethrough", "Subscript", "Superscript", "InlineCode"]

/-- `inlineNode(node, skip)` (inline.ts lines 230-235). -/
def inlineNodeL (node : SNode) (skip : Nat) : LNode :=
  .mk (some node) (node.nFrom + skip) node.nTo []

/-- `textNodeFT(from, to, skip)` (inline.ts lines 237-241). -/
def textNodeFT (f t skip : Nat) : LNode :=
  .mk none (f + skip) t []

/-- `textNode(node, skip)` (inline.ts lines 243-244). -/
def textNodeL (node : SNode) (skip : Nat) : LNode :=
  textNodeFT node.nFrom node.nTo skip

/-! The `fuel` argument of the next two functions makes their nested
recursion structural; the source recursion terminates on the finite
syntax tree, and `inlineFuel` below exceeds any tree evaluated in this
development, so the fuel-exhaustion branches are unreachable. -/

mutual

/-- The loop body of `buildInlineNodeTree` (inline.ts lines 64-90): walk
the sorted non-instruction children, emitting a gap text leaf before a
child when the cursor trails it, then the child's node (recursing into
the non-instruction grandchildren for nestable marks, else one opaque
text leaf); `skip` is consumed by the first emitted node.  Returns the
emitted nodes with the final cursor and skip. -/
def buildLoopF : Nat → List SNode → Nat → Nat → (List LNode × Nat × Nat)
  | _, [], cursor, skip => ([], cursor, skip)
  | 0, _ :: _, cursor, skip => ([], cursor, skip)
  | fuel + 1, child :: rest, cursor, skip =>
    let gap :=
      if cursor < child.nFrom then ([textNodeFT cursor child.nFrom skip], 0)
      else (([] : List LNode), skip)
    let childNode :=
      if LezerMarksMap child.name then
        LNode.mk (some child) (child.nFrom + gap.2) child.nTo
          ((sortByFrom (getNonInstChildren child)).map
            (fun gc => buildInlineNodeTreeF fuel gc 0))
      else
        LNode.mk (some child) (child.nFrom + gap.2) child.nTo [textNodeL child 0]
    let restResult := buildLoopF fuel rest child.nTo 0
    (gap.1 ++ childNode :: restResult.1, restResult.2)

/-- `buildInlineNodeTree(node, skip)` (inline.ts lines 53-99): the root
spans `[node.from + skip, node.to)`; with no non-instruction children a
single text leaf covers the node, otherwise the loop above runs and a
trailing text leaf covers any remainder before `node.to`. -/
def buildInlineNodeTreeF : Nat → SNode → Nat → LNode
  | 0, node, skip => textNodeL node skip
  | fuel + 1, node, skip =>
    let children := sortByFrom (getNonInstChildren node)
    match children with
    | [] => LNode.mk (some node) (node.nFrom + skip) node.nTo [textNodeL node skip]
    | _ :: _ =>
      let body := buildLoopF fuel children node.nFrom skip
      let trailing :=
        if body.2.1 < node.nTo then [textNodeFT body.2.1 node.nTo body.2.2] else []
      LNode.mk (some node) (node.nFrom + skip) node.nTo (body.1 ++ trailing)

end

/-- Ample fuel for the fuel-structured recursions over the concrete trees
evaluated in this development. -/
def inlineFuel : Nat := 1000

def buildInlineNodeTree (node : SNode) (skip : Nat) : LNode :=
  buildInlineNodeTreeF inlineFuel node skip

/-! ## The spec's span invariant on formatting trees -/

/-- Consecutive children's spans abut: `c(i).to = c(i+1).from` (this is
the contiguity conjunct; abutting half-open spans are also
non-overlapping). -/
def spansChain : List LNode → Bool
  | [] => true
  | [_] => true
  | a :: b :: rest => (a.nTo == b.nFrom) && spansChain (b :: rest)

/-- Every child's span lies within `[f, t)`. -/
def spansWithin (f t : Nat) (cs : List LNode) : Bool :=
  cs.all (fun c => decide (f ≤ c.nFrom) && decide (c.nTo ≤ t))

/-- The claimed invariant, recursively at every node of a formatting
tree: children's spans contiguous, non-overlapping and contained in the
parent's span. -/
def wfSpansF : Nat → LNode → Bool
  | 0, _ => true
  | fuel + 1, n =>
    spansChain n.children && spansWithin n.nFrom n.nTo n.children &&
      n.children.all (fun c => wfSpansF fuel c)

def wfSpans (n : LNode) : Bool :=
  wfSpansF inlineFuel n

/-! ## Inline vnode materialization (src/inline.ts `iNodeToVNode` /
`nestableMark`, lines 101-166)

Snabbdom contract (external): after `patch`, the element's children equal
the materialization of the new vnode's children; a vnode whose `children`
array is set renders those children and ignores its `text`.  Strings in a
vnode children array become text nodes. -/

def materializeF : Nat → String → LNode → DNode
  | 0, _, _ => DNode.txt ""
  | fuel + 1, text, i =>
    match i.ref with
    | some node =>
      if LezerMarksMap node.name then
        -- nestableMark: trim the delimiters off the content span
        match schemaMarks ((LezerTagMap node.name).getD "") with
        | some spec =>
          let marks := getInstChildren node
          let start := match marks.head? with
            | some m => m.nTo
            | none => node.nFrom
          let stop :=
            if marks.length > 1 then (marks.getLast?.map (·.nFrom)).getD node.nTo
            else node.nTo
          let content := jsSubstring text start stop
          let attrs := (match spec.cls with
            | some c => [("class", c)]
            | none => []) ++ spec.attributes
          if i.children.isEmpty then DNode.el spec.tag attrs [DNode.txt content]
          else DNode.el spec.tag attrs (i.children.map (fun c => materializeF fuel text c))
        | none => DNode.txt ""
      else if node.name = "HardBreak" then DNode.el "br" [] []
      else if node.name = "Escape" then DNode.txt (jsSubstring text (i.nFrom + 1) i.nTo)
      else if node.name = "HTMLTag" then
        DNode.el "span" [] [DNode.txt (jsSubstring text i.nFrom i.nTo)]
      else if node.name = "URL" then DNode.txt ""
      else DNode.txt (jsSubstring text i.nFrom i.nTo)
    | none => DNode.txt (jsSubstring text i.nFrom i.nTo)

def materializeINode (text : String) (i : LNode) : DNode :=
  materializeF inlineFuel text i

/-- `renderInline(state, node, element, skip)` (inline.ts lines 21-50):
builds the formatting tree, converts its children to vnodes and patches
the element; by the snabbdom contract the element's resulting child list
is the materialization of those vnodes, regardless of the cached previous
vnode. -/
def renderInlineChildren (text : String) (node : SNode) (skip : Nat) : List DNode :=
  (buildInlineNodeTree node skip).children.map (fun c => materializeINode text c)

/-! ## Structural pass (renderer.ts part_000 lines 263-285 `renderDOM`,
with the heading renderer of the paired blocks.ts revision)

`RState` holds what the pass reads and writes: the target's top-level
element children and the checkpoint's block index. -/

structure RState where
  dom : List DNode
  cp : Option Nat

def emptyRState : RState := ⟨[], none⟩

/-- `Number.parseInt(block.name.at(-1), 10)` for heading kind names. -/
def headingLevelOf (name : String) : Nat :=
  match name.toList.getLast? with
  | some c => if c.isDigit then c.toNat - '0'.toNat else 0
  | none => 0

/-- `el instanceof HTMLHeadingElement`. -/
def isHeadingTag (t : String) : Bool :=
  t ∈ ["h1", "h2", "h3", "h4", "h5", "h6"]

def replaceChildren (d : DNode) (cs : List DNode) : DNode :=
  match d with
  | .el t a _ => .el t a cs
  | .txt s => .txt s

/-- `HeadingsRenderer(state, block)` (the blocks.ts revision paired with
the checkpoint renderer): reuse the element at the checkpoint index
whenever it is *any* heading element, else create an `h<level>` block and
insert it; then patch the inline content with `skip = level + 1`. -/
def HeadingsRendererL (text : String) (st : RState) (block : SNode) : RState :=
  let level := headingLevelOf block.name
  let idx := st.cp.getD 0
  let blockEl := st.dom.get? idx
  let isH := match blockEl with
    | some (DNode.el t _ _) => isHeadingTag t
    | _ => false
  let inline := renderInlineChildren text block (level + 1)
  if isH then
    match blockEl with
    | some d => { st with dom := st.dom.set idx (replaceChildren d inline) }
    | none => st
  else
    let h0 := match createBlockL "heading" (some level) with
      | .ok d => d
      | .error _ => DNode.txt ""
    let h1 := replaceChildren h0 inline
    match blockEl with
    | some _ => { st with dom := st.dom.set idx h1 }
    | none => { st with dom := st.dom ++ [h1] }

/-- `renderBlock` dispatch applied to the block renderers.  The model
executes the heading path, the only one the theorems below evaluate;
dispatch targeting the other renderers is left unmodelled (`none`).  The
dispatch decision itself is `renderBlockDispatch` above. -/
def renderBlockL (text : String) (st : RState) (block : SNode) : Option RState :=
  match renderBlockDispatch block with
  | .skip => some st
  | .renderWith key =>
    if key = "heading" then some (HeadingsRendererL text st block) else none

/-- The `for (let i = blockIndex; i < children.length; i++)` loop of
`renderDOM`: record the checkpoint for block `i`, then dispatch its
renderer. -/
def renderSeq (text : String) : List SNode → Nat → RState → Option RState
  | [], _, st => some st
  | block :: rest, i, st =>
    let st1 : RState := { st with cp := some i }
    match renderBlockL text st1 block with
    | some st2 => renderSeq text rest (i + 1) st2
    | none => none

/-- The `while (blockIndex > children.length)` trim loop of `renderDOM`:
remove the element at `blockIndex` (when present) and decrement. -/
def trimLoopF : Nat → RState → Int → Nat → RState × Int
  | 0, st, i, _ => (st, i)
  | fuel + 1, st, i, len =>
    if i > (len : Int) then
      let st' := match st.dom.get? i.toNat with
        | some _ => { st with dom := st.dom.eraseIdx i.toNat }
        | none => st
      trimLoopF fuel st' (i - 1) len
    else (st, i)

/-- `renderDOM` (part_000 lines 263-285): resume at the checkpoint block
index (`-1` on the first pass, clamped to `0`), trim excess elements, and
re-render every block from there. -/
def renderDOML (text : String) (children : List SNode) (st : RState) : Option RState :=
  if children.isEmpty then some st
  else
    let blockIndex : Int := match st.cp with
      | some n => (n : Int)
      | none => -1
    let trimmed := trimLoopF (blockIndex.toNat + 1) st blockIndex children.length
    let start : Nat := if trimmed.2 < 0 then 0 else trimmed.2.toNat
    renderSeq text (children.drop start) start trimmed.1

/-! ## Concrete parser outputs used by the evaluation theorems

The markdown parser is the external `@lezer/markdown` CommonMark+GFM
parser.  The trees below transcribe its output for the stated inputs:
ATX headings own a leading `HeaderMark` delimiter token (`#`/`##`), an
emphasis node owns its `EmphasisMark` delimiters and its nested mark
children, a superscript node its `SuperscriptMark` delimiters; delimiter
tokens carry the `processingInstruction` style tag. -/

/-- The single top-level block of `"#"`: an (empty) level-1 ATX heading. -/
def atxHeading1Node : SNode :=
  .mk "ATXHeading1" 0 1 [.mk "HeaderMark" 0 1 [] true] false

/-- The single top-level block of `"## b"`: a level-2 ATX heading. -/
def atxHeading2Node : SNode :=
  .mk "ATXHeading2" 0 4 [.mk "HeaderMark" 0 2 [] true] false

/-- `Superscript` node of `^b^` at offset 4 in `"**a ^b^ c ^d^ e**"`. -/
def sup1Node : SNode :=
  .mk "Superscript" 4 7 [.mk "SuperscriptMark" 4 5 [] true, .mk "SuperscriptMark" 6 7 [] true] false

/-- `Superscript` node of `^d^` at offset 10 in `"**a ^b^ c ^d^ e**"`. -/
def sup2Node : SNode :=
  .mk "Superscript" 10 13
    [.mk "SuperscriptMark" 10 11 [] true, .mk "SuperscriptMark" 12 13 [] true] false

/-- The `StrongEmphasis` node of `"**a ^b^ c ^d^ e**"`: delimiters at the
ends, two superscript children, plain text in the gaps between them. -/
def strongGapNode : SNode :=
  .mk "StrongEmphasis" 0 17
    [.mk "EmphasisMark" 0 2 [] true, sup1Node, sup2Node, .mk "EmphasisMark" 15 17 [] true] false

/-- The top-level `Paragraph` of `"**a ^b^ c ^d^ e**"`. -/
def paraGapNode : SNode :=
  .mk "Paragraph" 0 17 [strongGapNode] false

/-! ## Helper lemmas on attributes and lists -/

theorem getAttr_append_kv (attrs : List (String × String)) (k v : String)
    (h : attrs.find? (fun p => p.1 = k) = none) :
    getAttr (attrs ++ [(k, v)]) k = some v := by
  induction attrs with
  | nil => simp [getAttr]
  | cons p rest ih =>
    rw [List.find?_eq_none] at h
    have hp : ¬(p.1 = k) := by simpa using h p (List.mem_cons_self p rest)
    have hrest : rest.find? (fun p => p.1 = k) = none := by
      rw [List.find?_eq_none]
      intro x hx
      exact h x (List.mem_cons_of_mem p hx)
    have := ih hrest
    simpa [getAttr, List.find?_cons_of_neg, hp] using this

theorem getAttr_map_overwrite (attrs : List (String × String)) (k v : String)
    (h : (attrs.find? (fun p => p.1 = k)).isSome = true) :
    getAttr (attrs.map (fun p => if p.1 = k then (k, v) else p)) k = some v := by
  induction attrs with
  | nil => simp at h
  | cons p rest ih =>
    by_cases hp : p.1 = k
    · simp [getAttr, List.find?_cons_of_pos, hp]
    · rw [List.find?_cons_of_neg _ (by simpa using hp)] at h
      have := ih h
      simpa [getAttr, List.find?_cons_of_neg, hp] using this

theorem getAttr_map_ne (attrs : List (String × String)) (k k' v : String) (hne : k' ≠ k) :
    getAttr (attrs.map (fun p => if p.1 = k' then (k', v) else p)) k = getAttr attrs k := by
  induction attrs with
  | nil => rfl
  | cons p rest ih =>
    by_cases hp : p.1 = k'
    · have hpk : ¬(p.1 = k) := by rw [hp]; exact hne
      simp only [List.map_cons, if_pos hp, getAttr] at ih ⊢
      rw [List.find?_cons_of_neg _ (by simpa using hne), List.find?_cons_of_neg _ (by simpa using hpk)]
      exact ih
    · simp only [List.map_cons, if_neg hp, getAttr] at ih ⊢
      by_cases hpk : p.1 = k
      · rw [List.find?_cons_of_pos _ (by simpa using hpk),
          List.find?_cons_of_pos _ (by simpa using hpk)]
      · rw [List.find?_cons_of_neg _ (by simpa using hpk),
          List.find?_cons_of_neg _ (by simpa using hpk)]
        exact ih

theorem getAttr_append_ne (attrs : List (String × String)) (k k' v : String) (hne : k' ≠ k) :
    getAttr (attrs ++ [(k', v)]) k = getAttr attrs k := by
  induction attrs with
  | nil => simp [getAttr, hne]
  | cons p rest ih =>
    by_cases hp : p.1 = k
    · simp only [List.cons_append, getAttr]
      rw [List.find?_cons_of_pos _ (by simpa using hp),
        List.find?_cons_of_pos _ (by simpa using hp)]
    · simp only [List.cons_append, getAttr] at ih ⊢
      rw [List.find?_cons_of_neg _ (by simpa using hp),
        List.find?_cons_of_neg _ (by simpa using hp)]
      exact ih

theorem getAttr_setAttr_ne (attrs : List (String × String)) (k k' v : String) (hne : k' ≠ k) :
    getAttr (setAttr attrs k' v) k = getAttr attrs k := by
  unfold setAttr
  cases h : (attrs.find? (fun p => p.1 = k')).isSome with
  | true => simpa [h] using getAttr_map_ne attrs k k' v hne
  | false => simpa [h] using getAttr_append_ne attrs k k' v hne

theorem getAttr_setAttr_self (attrs : List (String × String)) (k v : String) :
    getAttr (setAttr attrs k v) k = some v := by
  unfold setAttr
  cases h : (attrs.find? (fun p => p.1 = k)).isSome with
  | true => simpa [h] using getAttr_map_overwrite attrs k v h
  | false =>
    have hn : attrs.find? (fun p => p.1 = k) = none := by
      cases hf : attrs.find? (fun p => p.1 = k) with
      | none => rfl
      | some x => rw [hf] at h; simp at h
    simpa [h] using getAttr_append_kv attrs k v hn

theorem getLast?_eq_none_iff_nil (l : List TreeFragment) : l.getLast? = none ↔ l = [] :=
  List.getLast?_eq_none_iff

/-! ## Claim C2 -/

/-- C2, counterexample: on a renderer whose previous text ends at offset
`T = 5`, `append("abc")` hands `applyChanges` the descriptor
`{fromA: 5, toA: 8, fromB: 5, toB: 8}` — the claimed descriptor has
`toA = T = 5`, but the code computes `toA = T + len(chunk)`. -/
theorem c2_changed_range_counterexample :
    (MDRenderer.init "hello").appendChanged "abc" =
      some { fromA := 5, toA := 8, fromB := 5, toB := 8 }
    ∧ (MDRenderer.init "hello").appendChanged "abc" ≠
      some { fromA := 5, toA := 5, fromB := 5, toB := 8 } := by
  exact ⟨rfl, by decide⟩

/-- C2, amended: for every `append(chunk)` on a renderer whose last
fragment ends at the previous text's end offset `T`, the edited-range
descriptor handed to the fragment-update step equals
`{fromA: T, toA: T + len(chunk), fromB: T, toB: T + len(chunk)}`. -/
theorem c2_changed_range_amended :
    ∀ (r : MDRenderer) (chunk : String) (frag : TreeFragment),
      r.fragments.getLast? = some frag →
      frag.fragTo = r.text.length →
      r.appendChanged chunk =
        some { fromA := r.text.length, toA := r.text.length + chunk.length,
               fromB := r.text.length, toB := r.text.length + chunk.length } := by
  intro r chunk frag h hT
  simp only [MDRenderer.appendChanged, h, hT]

/-- C2, witness for the amended theorem at `T = 5`, `chunk = "abc"`. -/
theorem c2_changed_range_witness :
    (MDRenderer.init "hello").appendChanged "abc" =
      some { fromA := 5, toA := 8, fromB := 5, toB := 8 } :=
  c2_changed_range_amended (MDRenderer.init "hello") "abc" { fragFrom := 0, fragTo := 5 } rfl rfl

/-! ## Claim C5 -/

/-- C5: `append(chunk)` throws the descriptive `"AST is not
instantiated"` error exactly when the fragment set is empty; a renderer
built by `init` (a prior successful parse) has a non-empty fragment set,
and every successful `append` leaves the fragment set non-empty — so on
a renderer with a prior successful parse `append` never raises this
error. -/
theorem c5_append_uninitialized :
    (∀ (r : MDRenderer) (chunk : String),
      r.append chunk = Except.error "AST is not instantiated" ↔ r.fragments = [])
    ∧ (∀ t : String, (MDRenderer.init t).fragments ≠ [])
    ∧ (∀ (r : MDRenderer) (chunk : String) (r' : MDRenderer),
      r.append chunk = Except.ok r' → r'.fragments ≠ []) := by
  refine ⟨?_, ?_, ?_⟩
  · intro r chunk
    constructor
    · intro hc
      cases hf : r.fragments.getLast? with
      | none => exact (getLast?_eq_none_iff_nil r.fragments).mp hf
      | some frag =>
        unfold MDRenderer.append at hc
        rw [hf] at hc
        exact Except.noConfusion hc
    · intro hnil
      unfold MDRenderer.append
      rw [(getLast?_eq_none_iff_nil r.fragments).mpr hnil]
  · intro t
    simp [MDRenderer.init, addTree]
  · intro r chunk r' hc
    cases hf : r.fragments.getLast? with
    | none =>
      unfold MDRenderer.append at hc
      rw [hf] at hc
      exact Except.noConfusion hc
    | some frag =>
      unfold MDRenderer.append at hc
      rw [hf] at hc
      simp only [Except.ok.injEq] at hc
      rw [← hc]
      simp [addTree]

/-- C5, witness: the third conjunct applied to the concrete successful
append of `"c"` onto the renderer initialized with `"ab"`. -/
theorem c5_append_uninitialized_witness :
    ({ fragments := [{ fragFrom := 0, fragTo := 3 }], text := "abc" } : MDRenderer).fragments ≠ [] :=
  c5_append_uninitialized.2.2 (MDRenderer.init "ab") "c"
    { fragments := [{ fragFrom := 0, fragTo := 3 }], text := "abc" } rfl

/-! ## Claim C10 -/

/-- C10: `ListRenderer.render` on an `<ol>` element with no `start`
attribute sets `start` to the leading decimal digits of the first list
item's source text, defaulting to `"1"` when that text does not begin
with a digit; the value it writes is never empty, and an attribute
already present with a non-empty value (as every value written by this
code is) is left unchanged on later passes. -/
theorem c10_list_start_attribute :
    (∀ (attrs : List (String × String)) (text : String) (children : List SNode) (leaf : SNode),
      getAttr attrs "start" = none →
      children.head? = some leaf →
      getAttr (listStartUpdate attrs true text children) "start" =
        some ((jsLeadingDigits (jsSubstring text leaf.nFrom leaf.nTo)).getD "1"))
    ∧ (∀ s : String, (jsLeadingDigits s).getD "1" ≠ "")
    ∧ (∀ (attrs : List (String × String)) (isOl : Bool) (text : String)
        (children : List SNode) (s : String),
      getAttr attrs "start" = some s → s ≠ "" →
      listStartUpdate attrs isOl text children = attrs) := by
  refine ⟨?_, ?_, ?_⟩
  · intro attrs text children leaf hnone hleaf
    unfold listStartUpdate
    rw [hnone]
    simp only [jsAttrTruthy]
    rw [if_pos (by simp), hleaf]
    exact getAttr_setAttr_self attrs "start" _
  · intro s
    unfold jsLeadingDigits
    cases hl : s.toList with
    | nil => simp
    | cons c rest =>
      by_cases hc : c.isDigit
      · simp only [hc, if_true, Option.getD_some]
        intro heq
        have hdata := congrArg String.data heq
        simp [List.takeWhile_cons, hc] at hdata
      · simp [hc]
  · intro attrs isOl text children s hs hne
    unfold listStartUpdate
    rw [hs]
    have : jsAttrTruthy (some s) = true := by simp [jsAttrTruthy, hne]
    rw [if_neg]
    simp [this]

/-- C10, witness: an `ol` with no `start` attribute whose first item's
text is `"3. item"` gets `start = "3"`; the value is non-empty; and a
present `start = "3"` is not overwritten. -/
theorem c10_list_start_attribute_witness :
    getAttr (listStartUpdate [] true "3. item" [SNode.mk "ListItem" 0 7 [] false]) "start" =
      some "3"
    ∧ ((jsLeadingDigits "3. item").getD "1" ≠ "")
    ∧ listStartUpdate [("start", "3")] true "9. item" [SNode.mk "ListItem" 0 7 [] false] =
      [("start", "3")] :=
  ⟨c10_list_start_attribute.1 [] "3. item" [SNode.mk "ListItem" 0 7 [] false]
      (SNode.mk "ListItem" 0 7 [] false) rfl rfl,
    c10_list_start_attribute.2.1 "3. item",
    c10_list_start_attribute.2.2 [("start", "3")] true "9. item"
      [SNode.mk "ListItem" 0 7 [] false] "3" rfl (by decide)⟩

/-! ## Claim C4 -/

/-- C4: a link syntax node with fewer than 3 children or no `URL` child
renders as a single plain-text `span` covering the node's whole span —
no error is thrown (the result is `Except.ok`) and no anchor element is
produced. -/
theorem c4_malformed_link_degrades :
    ∀ (text base : String) (node : SNode),
      node.children.length < 3 ∨ node.children.find? (fun n => n.name = "URL") = none →
      renderLinkMark text base node =
        Except.ok (DNode.el "span" [] [DNode.txt (jsSubstring text node.nFrom node.nTo)]) := by
  intro text base node h
  unfold renderLinkMark
  rw [if_pos]
  rcases h with h | h
  · simp [h]
  · simp [h]

/-- C4, witness: the malformed link `"[foo"` (a `Link` node with a single
`LinkMark` child) renders as a `span` holding the literal text. -/
theorem c4_malformed_link_degrades_witness :
    renderLinkMark "[foo" "https://example.com/"
        (SNode.mk "Link" 0 4 [SNode.mk "LinkMark" 0 1 [] true] false) =
      Except.ok (DNode.el "span" [] [DNode.txt "[foo"]) :=
  c4_malformed_link_degrades "[foo" "https://example.com/"
    (SNode.mk "Link" 0 4 [SNode.mk "LinkMark" 0 1 [] true] false) (Or.inl (by decide))

/-! ## Claim C6 -/

/-- C6, counterexample: the kind `"Custom"` has no `LezerTagMap` entry
and hence no schema entry, yet `renderBlock` dispatches the default
paragraph renderer for it instead of failing fast — the dispatch has no
error path at all. -/
theorem c6_unknown_kind_counterexample :
    LezerTagMap "Custom" = none
    ∧ renderBlockDispatch (SNode.mk "Custom" 0 1 [] false) =
        BlockDispatch.renderWith "paragraph" :=
  ⟨rfl, rfl⟩

/-- C6, amended: dispatching a structural node whose kind has no schema
entry falls back to the default paragraph renderer and throws nothing;
the descriptive fail-fast error (`Unknown node type`) is raised only by
`createBlock` when a requested block name has no schema entry. -/
theorem c6_unknown_kind_amended :
    (∀ block : SNode, block.name ≠ "CommentBlock" → LezerTagMap block.name = none →
      renderBlockDispatch block = BlockDispatch.renderWith "paragraph")
    ∧ (∀ (name : String) (level : Option Nat), schemaBlocks name = none →
      createBlockL name level = Except.error ("Unknown node type: " ++ name)) := by
  constructor
  · intro block hname hmap
    unfold renderBlockDispatch
    rw [if_neg hname, hmap]
  · intro name level h
    unfold createBlockL
    rw [h]

/-- C6, witness: the unmapped kind `"Aside"` dispatches to the paragraph
renderer; `createBlock` on the schema-less name `"block_quote"` (the
key `Blockquote` actually maps to) throws the descriptive error. -/
theorem c6_unknown_kind_amended_witness :
    renderBlockDispatch (SNode.mk "Aside" 0 2 [] false) = BlockDispatch.renderWith "paragraph"
    ∧ createBlockL "block_quote" none = Except.error "Unknown node type: block_quote" :=
  ⟨c6_unknown_kind_amended.1 (SNode.mk "Aside" 0 2 [] false) (by decide) rfl,
    c6_unknown_kind_amended.2 "block_quote" none rfl⟩

/-! ## Claim C7 -/

theorem jsIndexOfAux_eq_neg_one (l : List Bool) (acc : Int)
    (h : ∀ j, l.get? j ≠ some true) : jsIndexOfAux l true acc = -1 := by
  induction l generalizing acc with
  | nil => rfl
  | cons b rest ih =>
    have hb : ¬(b = true) := by
      intro hb
      exact h 0 (by simp [hb])
    unfold jsIndexOfAux
    rw [if_neg hb]
    exact ih (acc + 1) (fun j => by simpa using h (j + 1))

theorem jsIndexOfAux_eq_of_first (l : List Bool) (acc : Int) (i : Nat)
    (hi : l.get? i = some true) (hmin : ∀ j, j < i → l.get? j = some false) :
    jsIndexOfAux l true acc = acc + i := by
  induction l generalizing acc i with
  | nil => simp at hi
  | cons b rest ih =>
    cases i with
    | zero =>
      rw [List.get?_cons_zero, Option.some.injEq] at hi
      unfold jsIndexOfAux
      rw [if_pos hi]
      simp
    | succ j =>
      have hb : b = false := by
        have := hmin 0 (Nat.succ_pos j)
        rw [List.get?_cons_zero, Option.some.injEq] at this
        exact this
      unfold jsIndexOfAux
      rw [if_neg (by simp [hb])]
      have := ih (acc + 1) j (by simpa using hi)
        (fun j' hj' => by simpa using hmin (j' + 1) (Nat.succ_lt_succ hj'))
      rw [this]
      push_cast
      ring

theorem take_min_length (l : List String) (i : Nat) :
    l.take (min i l.length) = l.take i := by
  cases Nat.le_total i l.length with
  | inl h => rw [Nat.min_eq_left h]
  | inr h => rw [Nat.min_eq_right h, List.take_length, List.take_of_length_le h]

/-- C7, counterexample: a sync pass over two paragraphs and two matching
`p` elements — every existing child's tag matches the schema-expected
tag, yet the pass removes the final element: `mismatches.indexOf(true)`
is `-1` and `Array.splice(-1)` removes the last entry. -/
theorem c7_sync_pass_counterexample :
    expectedTags? [SNode.mk "Paragraph" 0 1 [] false, SNode.mk "Paragraph" 2 3 [] false] =
      some ["p", "p"]
    ∧ tagMismatch ["p", "p"] ["p", "p"] 0 = false
    ∧ tagMismatch ["p", "p"] ["p", "p"] 1 = false
    ∧ syncDOMKept [SNode.mk "Paragraph" 0 1 [] false, SNode.mk "Paragraph" 2 3 [] false]
        ["p", "p"] = Except.ok ["p"] :=
  ⟨by rfl, by rfl, by rfl, by rfl⟩

/-- C7, amended: when some index mismatches, the sync pass removes
exactly the elements from the first mismatching index through the last
child and leaves every earlier element untouched — but when every index
matches, it still removes the last element (JS `splice(-1)`), rather
than removing nothing. -/
theorem c7_sync_pass_amended :
    ∀ (nodes : List SNode) (els ts : List String),
      expectedTags? nodes = some ts →
      ((∀ i, i < ts.length → tagMismatch ts els i = false) →
        syncDOMKept nodes els = Except.ok (els.take (els.length - 1)))
      ∧ (∀ i, tagMismatch ts els i = true →
          (∀ j, j < i → tagMismatch ts els j = false) →
          syncDOMKept nodes els = Except.ok (els.take i)) := by
  intro nodes els ts hts
  constructor
  · intro hall
    have hidx : jsIndexOf ((List.range ts.length).map (fun i => tagMismatch ts els i)) true
        = -1 := by
      apply jsIndexOfAux_eq_neg_one
      intro j
      rw [List.get?_map]
      cases Nat.lt_or_ge j ts.length with
      | inl hj =>
        rw [List.get?_range hj]
        simp [hall j hj]
      | inr hj =>
        rw [List.get?_eq_none.mpr (by simpa using hj)]
        simp
    simp only [syncDOMKept, hts, hidx]
    rw [if_pos (by decide : (-1 : Int) < 0)]
    have harith : ((els.length : Int) + -1).toNat = els.length - 1 := by omega
    rw [harith]
  · intro i hi hmin
    have hlen : i < ts.length := by
      by_contra hge
      have hnone : ts.get? i = none := List.get?_eq_none.mpr (by omega)
      unfold tagMismatch at hi
      rw [hnone] at hi
      simp at hi
    have hidx : jsIndexOf ((List.range ts.length).map (fun i => tagMismatch ts els i)) true
        = (0 : Int) + i := by
      apply jsIndexOfAux_eq_of_first
      · rw [List.get?_map, List.get?_range hlen]
        simp [hi]
      · intro j hj
        rw [List.get?_map, List.get?_range (by omega)]
        simp [hmin j hj]
    simp only [syncDOMKept, hts, hidx]
    rw [if_neg (by omega)]
    have harith : ((0 : Int) + (i : Int)).toNat = i := by omega
    rw [harith, take_min_length]

/-- C7, witness for the amended theorem: over `[Paragraph, BulletList]`
with existing elements `["p", "ol"]`, the first mismatch is at index 1
(`ol ≠ ul`), so exactly the elements from index 1 on are removed and the
matching `p` is untouched. -/
theorem c7_sync_pass_amended_witness :
    syncDOMKept [SNode.mk "Paragraph" 0 1 [] false, SNode.mk "BulletList" 2 9 [] false]
      ["p", "ol"] = Except.ok ["p"] :=
  (c7_sync_pass_amended [SNode.mk "Paragraph" 0 1 [] false, SNode.mk "BulletList" 2 9 [] false]
    ["p", "ol"] ["p", "ul"] (by rfl)).2 1 (by rfl)
    (fun j hj => by
      have : j = 0 := by omega
      subst this
      rfl)

/-! ## Claim C3 -/

/-- C3, counterexample: the URL span text `"foo"` does not parse as an
absolute URL (it has no scheme), so by the claim its anchor's `href`
should be `"#"`; but `sanitizeUrl` resolves it against the page base
(`new URL(url, window.location.href)`), inherits the base's `https:`
scheme, and keeps `"foo"`.  The rendered anchor for `"[x](foo)"`
therefore carries `href="foo"`, not `href="#"`. -/
theorem c3_href_counterexample :
    jsSchemeOf "foo" = none
    ∧ sanitizeUrl "foo" "https://example.com/" = "foo"
    ∧ ("foo" : String) ≠ "#"
    ∧ renderLinkMark "[x](foo)" "https://example.com/"
        (SNode.mk "Link" 0 8
          [SNode.mk "LinkMark" 0 1 [] true, SNode.mk "LinkMark" 2 3 [] true,
            SNode.mk "URL" 4 7 [] false] false) =
      Except.ok (DNode.el "a"
        [("rel", "noopener noreferrer"), ("target", "_blank"), ("href", "foo")]
        [DNode.txt "x"]) := by
  exact ⟨rfl, rfl, by decide, rfl⟩

/-- C3, amended: the anchor's `href` equals the URL span's text exactly
when the text's own scheme is in the allow-list, or when the text has no
scheme of its own and the page base URL's scheme is in the allow-list
(the sanitizer resolves scheme-less input against `window.location`);
text with a disallowed scheme — `javascript:alert(1)` in particular —
and text unparsable even against the base yield `"#"`.  On a well-formed
link node the rendered anchor's `href` attribute is exactly
`sanitizeUrl` of the URL span's text. -/
theorem c3_href_amended :
    (∀ url base p, jsSchemeOf url = some p → allowedProtocols.contains p = true →
      sanitizeUrl url base = url)
    ∧ (∀ url base p, jsSchemeOf url = some p → allowedProtocols.contains p = false →
      sanitizeUrl url base = "#")
    ∧ (∀ url base pb, jsSchemeOf url = none → jsSchemeOf base = some pb →
      sanitizeUrl url base = if allowedProtocols.contains pb then url else "#")
    ∧ (∀ url base, jsSchemeOf url = none → jsSchemeOf base = none →
      sanitizeUrl url base = "#")
    ∧ (∀ base, sanitizeUrl "javascript:alert(1)" base = "#")
    ∧ (∀ (text base : String) (node u : SNode),
      node.children.find? (fun n => n.name = "URL") = some u →
      3 ≤ node.children.length →
      ∃ d, renderLinkMark text base node = Except.ok d
        ∧ d.tagOf = some "a"
        ∧ d.getAttribute "href" = some (sanitizeUrl (jsSubstring text u.nFrom u.nTo) base)) := by
  refine ⟨?_, ?_, ?_, ?_, ?_, ?_⟩
  · intro url base p hp hc
    have hpro : urlProtocol url base = some p := by
      unfold urlProtocol
      rw [hp]
      rfl
    simp only [sanitizeUrl, hpro]
    rw [if_pos hc]
  · intro url base p hp hc
    have hpro : urlProtocol url base = some p := by
      unfold urlProtocol
      rw [hp]
      rfl
    simp only [sanitizeUrl, hpro]
    rw [if_neg (by rw [hc]; exact Bool.false_ne_true)]
  · intro url base pb hu hb
    have hpro : urlProtocol url base = some pb := by
      unfold urlProtocol
      rw [hu]
      exact hb
    simp only [sanitizeUrl, hpro]
  · intro url base hu hb
    have hpro : urlProtocol url base = none := by
      unfold urlProtocol
      rw [hu]
      exact hb
    simp only [sanitizeUrl, hpro]
  · intro base
    unfold sanitizeUrl urlProtocol
    rfl
  · intro text base node u hu hlen
    unfold renderLinkMark
    rw [if_neg]
    · rw [hu]
      cases ht : node.children.find? (fun n => n.name = "LinkTitle") with
      | none =>
        refine ⟨_, rfl, rfl, ?_⟩
        simp [DNode.getAttribute, createMark, createElement, schemaMarks,
          DNode.setAttribute, DNode.setText, getAttr_setAttr_self]
      | some titleNode =>
        refine ⟨_, rfl, rfl, ?_⟩
        simp only [DNode.getAttribute, createMark, createElement, schemaMarks,
          DNode.setAttribute, DNode.setText, Option.getD_some]
        rw [getAttr_setAttr_ne _ _ _ _ (by decide)]
        exact getAttr_setAttr_self _ _ _
    · rw [hu]
      simp
      omega

/-- C3, witness for the amended theorem: an explicit `https:` scheme is
kept, an explicit `javascript:` scheme becomes `#`, a scheme-less URL
inherits the base's scheme, and the rendered anchor of `"[x](foo)"`
carries `href = sanitizeUrl "foo"`. -/
theorem c3_href_amended_witness :
    sanitizeUrl "https://a.io/x" "https://example.com/" = "https://a.io/x"
    ∧ sanitizeUrl "javascript:alert(1)" "https://example.com/" = "#"
    ∧ sanitizeUrl "foo" "https://example.com/" = (if allowedProtocols.contains "https:"
        then "foo" else "#")
    ∧ ∃ d, renderLinkMark "[x](foo)" "https://example.com/"
          (SNode.mk "Link" 0 8
            [SNode.mk "LinkMark" 0 1 [] true, SNode.mk "LinkMark" 2 3 [] true,
              SNode.mk "URL" 4 7 [] false] false) = Except.ok d
        ∧ d.tagOf = some "a"
        ∧ d.getAttribute "href" =
            some (sanitizeUrl (jsSubstring "[x](foo)" 4 7) "https://example.com/") :=
  ⟨c3_href_amended.1 "https://a.io/x" "https://example.com/" "https:" rfl rfl,
    c3_href_amended.2.1 "javascript:alert(1)" "https://example.com/" "javascript:" rfl rfl,
    c3_href_amended.2.2.1 "foo" "https://example.com/" "https:" rfl rfl,
    c3_href_amended.2.2.2.2.2 "[x](foo)" "https://example.com/"
      (SNode.mk "Link" 0 8
        [SNode.mk "LinkMark" 0 1 [] true, SNode.mk "LinkMark" 2 3 [] true,
          SNode.mk "URL" 4 7 [] false] false)
      (SNode.mk "URL" 4 7 [] false) rfl (by decide)⟩

/-! ## Claim C8 -/

/-- C8, counterexample: the previous pass's tail block has index 0, the
new pass has three blocks (so the old tail is no longer the tail:
`0 < 2`), its kind `bullet_list` defines a cleanup hook and its element
exists — yet no cleanup invocation happens, because the guard
`if (lastBlockId && ...)` treats the index `0` as falsy. -/
theorem c8_cleanup_counterexample :
    cleanupInvocations (some 0) 3
      [SNode.mk "BulletList" 0 5 [] false, SNode.mk "Paragraph" 6 8 [] false,
        SNode.mk "Paragraph" 9 11 [] false]
      ["ul", "p", "p"] = Except.ok []
    ∧ (getNodeSpecL (SNode.mk "BulletList" 0 5 [] false)).map (·.hasCleanup) = some true
    ∧ ((0 : Int) < (3 : Int) - 1) :=
  ⟨rfl, by rfl, by decide⟩

/-- C8, amended: when the previously last-rendered block's index `n` is
*non-zero* and less than the new last index, its kind's cleanup hook (if
defined) is invoked exactly once with that block's element; for `n = 0`
the falsy-zero guard skips the hook entirely. -/
theorem c8_cleanup_amended :
    (∀ (n finalIndex : Nat) (children : List SNode) (els : List String)
        (lastBlock : SNode) (spec : SpecEntry) (el : String),
      1 ≤ n → (n : Int) < (finalIndex : Int) - 1 →
      children.get? n = some lastBlock →
      getNodeSpecL lastBlock = some spec → spec.hasCleanup = true →
      els.get? n = some el →
      cleanupInvocations (some n) finalIndex children els = Except.ok [(n, el)])
    ∧ (∀ (finalIndex : Nat) (children : List SNode) (els : List String),
      cleanupInvocations (some 0) finalIndex children els = Except.ok []) := by
  constructor
  · intro n finalIndex children els lastBlock spec el hn hlt hchild hspec hcleanup hel
    simp only [cleanupInvocations, hchild, hspec, hel]
    rw [if_pos ⟨(by omega : n ≠ 0), hlt⟩, if_pos hcleanup]
  · intro finalIndex children els
    simp only [cleanupInvocations]
    rw [if_neg (by simp)]

/-- C8, witness for the amended theorem: previous tail index 1 of 4
blocks, a `bullet_list` with its `ul` element present — exactly one
invocation, receiving that element. -/
theorem c8_cleanup_amended_witness :
    cleanupInvocations (some 1) 4
      [SNode.mk "Paragraph" 0 1 [] false, SNode.mk "BulletList" 2 7 [] false,
        SNode.mk "Paragraph" 8 9 [] false, SNode.mk "Paragraph" 10 11 [] false]
      ["p", "ul", "p", "p"] = Except.ok [(1, "ul")]
    ∧ cleanupInvocations (some 0) 4
      [SNode.mk "BulletList" 0 5 [] false, SNode.mk "Paragraph" 6 7 [] false,
        SNode.mk "Paragraph" 8 9 [] false, SNode.mk "Paragraph" 10 11 [] false]
      ["ul", "p", "p", "p"] = Except.ok [] :=
  ⟨c8_cleanup_amended.1 1 4 _ _ (SNode.mk "BulletList" 2 7 [] false)
      { tag := "ul", hasRender := true, hasCleanup := true } "ul"
      (by decide) (by decide) rfl (by rfl) rfl rfl,
    c8_cleanup_amended.2 4 _ _⟩

/-! ## Claim C9 -/

/-- C9: the formatting tree the inline tree builder produces for the
paragraph `"**a ^b^ c ^d^ e**"` violates the claimed span invariant.
The `StrongEmphasis` node's children are the two superscript subtrees
with spans `[4,7)` and `[10,13)` only — the plain-text gaps `"a "`,
`" c "` and `" e"` inside the strong mark are dropped (the nestable-mark
branch of `buildInlineNodeTree` pushes only the grandchild subtrees,
lines 79-82 of inline.ts, emitting no gap text leaves), so consecutive
children's spans are not contiguous.  The repository's own test
("nested inline markup" expects `<strong>` text `"bold sup bold"`)
contradicts this dropped-gap behavior, so claim and spec state the
intent and the code is the slip. -/
theorem c9_span_invariant_violated :
    buildInlineNodeTree paraGapNode 0 =
      LNode.mk (some paraGapNode) 0 17
        [LNode.mk (some strongGapNode) 0 17
          [LNode.mk (some sup1Node) 4 7 [LNode.mk none 4 7 []],
            LNode.mk (some sup2Node) 10 13 [LNode.mk none 10 13 []]]]
    ∧ ((buildInlineNodeTree paraGapNode 0).children.headD default).children.map
        (fun c => (c.nFrom, c.nTo)) = [(4, 7), (10, 13)]
    ∧ spansChain ((buildInlineNodeTree paraGapNode 0).children.headD default).children = false
    ∧ wfSpans (buildInlineNodeTree paraGapNode 0) = false :=
  ⟨rfl, rfl, rfl, by rfl⟩

/-! ## Claim C1 -/

/-- C1: render-then-append is *not* equivalent to a one-pass render, by
tag structure, at `T1 = "#"`, `T2 = "# b"`.  The concatenation is
`"## b"`; the parser reads `"#"` as an (empty) level-1 ATX heading and
`"## b"` as a level-2 heading.  The first pass renders an `h1`; the
append pass re-renders block 0, and `HeadingsRenderer` reuses *any*
existing heading element without comparing its level (the later
`src/blocks.ts` revision added the `elevel === nlevel` check that fixes
exactly this), so the incremental result keeps the `h1` tag while a
one-pass render of `"## b"` produces an `h2`.  Text content agrees
(`"b"`); the tag structure differs. -/
theorem c1_append_monotonicity_violated :
    (renderDOML "#" [atxHeading1Node] emptyRState).bind
        (fun st => renderDOML "## b" [atxHeading2Node] st) =
      some { dom := [DNode.el "h1" [] [DNode.txt "b"]], cp := some 0 }
    ∧ renderDOML "## b" [atxHeading2Node] emptyRState =
      some { dom := [DNode.el "h2" [] [DNode.txt "b"]], cp := some 0 }
    ∧ ((renderDOML "#" [atxHeading1Node] emptyRState).bind
        (fun st => renderDOML "## b" [atxHeading2Node] st)).map
          (fun st => st.dom.map DNode.tagOf) = some [some "h1"]
    ∧ (renderDOML "## b" [atxHeading2Node] emptyRState).map
        (fun st => st.dom.map DNode.tagOf) = some [some "h2"]
    ∧ (DNode.el "h1" [] [DNode.txt "b"]).textContent =
        (DNode.el "h2" [] [DNode.txt "b"]).textContent
    ∧ ("h1" : String) ≠ "h2" :=
  ⟨rfl, rfl, rfl, rfl, rfl, by decide⟩

